import Mathlib

/-!
Shallow embedding of the core of the `eliprompt` prompt generator: the styled
fragment data model (`src/color.rs`, `src/style.rs`, `src/block.rs`), the
producer tree and its evaluation (`src/block/*.rs`), the context
(`src/env.rs`), and the generation controller with its fallback policy
(`src/main.rs`, `src/config.rs`).  External collaborator results (git
discovery, home directory, hostname, username, duration formatting) appear as
oracle fields of the context, mirroring the read-only facts the Rust code
obtains from its collaborator crates.
-/

namespace Eliprompt

/-- Filesystem paths are modelled as their component lists, the granularity at
which the source manipulates them (Rust `Path::strip_prefix`, `Path::parent`,
component-wise collection). -/
abbrev FsPath := List String

/-- Rendering model of Rust `Path::to_string_lossy`: components joined by the
separator.  The claims only inspect single-component paths, for which this is
exact. -/
def fsPathToString (p : FsPath) : String :=
  String.intercalate "/" p

/-- Rust `Path::strip_prefix`: `Ok` with the remaining components when `pre`
is a component-wise prefix, `Err` otherwise (modelled as `Option`). -/
def fsPathStrip (p pre : FsPath) : Option FsPath :=
  if pre <+: p then some (p.drop pre.length) else none

/-- Rust `Path::parent` from `src/block/git_path.rs` usage: `none` for an
empty path, otherwise the path without its last component. -/
def fsPathParent (p : FsPath) : Option FsPath :=
  match p with
  | [] => none
  | _ => some p.dropLast

/-- `Color` from `src/color.rs`: an RGB8 triple plus the optional
human-readable name (`name: Option<Cow<str>>`) kept by the source for
round-trip display. -/
structure Color where
  r : Nat
  g : Nat
  b : Nat
  name : Option String
deriving DecidableEq, Repr

/-- `Color::new` / `From<RGB8> for Color`: a plain RGB color without name. -/
def Color.new (r g b : Nat) : Color :=
  ⟨r, g, b, none⟩

/-- `Color::named` from `src/color.rs`: a palette constant carrying its
name. -/
def Color.namedColor (s : String) (r g b : Nat) : Color :=
  ⟨r, g, b, some s⟩

/-- `Color::as_rgb`. -/
def Color.asRgb (c : Color) : Nat × Nat × Nat :=
  (c.r, c.g, c.b)

/-- The equality the source actually has: `#[derive(PartialEq)]` on
`Color { inner, name }` compares the RGB triple and the optional name
structurally. -/
def Color.eqRust (a b : Color) : Bool :=
  a.r == b.r && a.g == b.g && a.b == b.b && a.name == b.name

/-- Target of `From<&Color> for ansi_term::Color` in `src/color.rs`. -/
inductive AnsiColor where
  | rgb (r g b : Nat)
deriving DecidableEq, Repr

/-- `From<&Color> for ansi_term::Color`: rendering a color keeps only the RGB
triple (`ansi_term::Color::RGB(c.inner.r, c.inner.g, c.inner.b)`). -/
def Color.toAnsi (c : Color) : AnsiColor :=
  .rgb c.r c.g c.b

/-- Palette constants of `src/color.rs` used by the producers modelled here
(CSS sRGB values from the `palette` crate). -/
def CRIMSON : Color := Color.namedColor "crimson" 220 20 60

/-- `DODGERBLUE` palette constant of `src/color.rs`. -/
def DODGERBLUE : Color := Color.namedColor "dodgerblue" 30 144 255

/-- `BLACK` palette constant of `src/color.rs`. -/
def BLACK : Color := Color.namedColor "black" 0 0 0

/-- Rust `u32::from_str` as used by `src/color.rs` (`s[1..].parse::<u32>()`):
an optional leading plus sign, then one or more decimal ASCII digits, with the
value required to fit in 32 bits.  Any other shape (including hexadecimal
digits) is a parse error. -/
def parseU32Decimal (cs : List Char) : Option Nat :=
  let ds := match cs with
    | '+' :: rest => rest
    | cs => cs
  if ds.isEmpty then none
  else if ds.all Char.isDigit then
    let n := ds.foldl (fun acc c => acc * 10 + (c.toNat - 48)) 0
    if n < 4294967296 then some n else none
  else none

/-- `TryFrom<String> for Color` from `src/color.rs`.  The named-color lookup
`palette::named::from_str` is an external collaborator and is passed in as the
`named` oracle; it is only consulted when the input does not start with `#`.
On the `#` branch the source parses the rest as a decimal `u32`
(`s[1..].parse::<u32>()`), rejects values with bits above the low 24
(`n & !0xffffff != 0`), and splits the value into its three big-endian low
bytes. -/
def colorTryFrom (named : String → Option (Nat × Nat × Nat)) (s : String) :
    Except String Color :=
  match s.data with
  | '#' :: rest =>
    match parseU32Decimal rest with
    | none => .error s
    | some n =>
      if n &&& 4278190080 != 0 then .error s
      else .ok ⟨n / 65536 % 256, n / 256 % 256, n % 256, none⟩
  | _ =>
    match named s with
    | some (r, g, b) => .ok ⟨r, g, b, some s⟩
    | none => .error s

/-- `Style` from `src/style.rs`: optional foreground and background colors. -/
structure Style where
  foreground : Option Color
  background : Option Color
deriving DecidableEq, Repr

/-- `Style::default` / `Style::new`: both channels absent. -/
def Style.new : Style :=
  ⟨none, none⟩

/-- `Style::fg`. -/
def Style.fg (c : Color) : Style :=
  ⟨some c, none⟩

/-- `Style::or` from `src/style.rs`: per-channel coalesce, the fragment's own
channel wins when present (`self.foreground.clone().or_else(|| ...)`). -/
def Style.or (s default : Style) : Style :=
  ⟨match s.foreground with
    | some c => some c
    | none => default.foreground,
   match s.background with
    | some c => some c
    | none => default.background⟩

/-- `Block` from `src/block.rs`: the styled text fragment. -/
structure Block where
  text : String
  style : Style
deriving DecidableEq, Repr

/-- `Block::new`. -/
def Block.new (text : String) : Block :=
  ⟨text, Style.new⟩

/-- `Block::with_style`. -/
def Block.withStyle (b : Block) (s : Style) : Block :=
  ⟨b.text, s⟩

/-- Result of `Repository::head()` combined with `head.shorthand()` as
consumed by `src/block/git_head.rs`: a shorthand name (possibly absent), the
`UnbornBranch` error code, or any other git error. -/
inductive HeadResult where
  | ok (shorthand : Option String)
  | unbornBranch
  | otherError (msg : String)
deriving DecidableEq, Repr

/-- The facts of a discovered repository that the producers read:
`repo.is_bare()`, `repo.path()` (the git directory), `repo.head()`. -/
structure Repo where
  isBare : Bool
  path : FsPath
  head : HeadResult
deriving DecidableEq, Repr

/-- Outcome of the `Repository::discover(&self.working_dir)` collaborator
call in `src/env.rs`: a repository, the `ErrorCode::NotFound` error
("not a repository"), or any other discovery error. -/
inductive GitDiscovery where
  | found (repo : Repo)
  | notFound
  | otherError (msg : String)
deriving DecidableEq, Repr

/-- The `Environment` context (`src/env.rs`).  `workingDir` is optional, as
consumed by `src/block/pwd.rs` and `src/block/git_path.rs`.  `gitDiscovery`
records the memoized outcome of the one-time `Repository::discover` call.
The remaining fields are oracles for the ambient collaborator calls the leaf
producers make: `dirs::home_dir()`, `whoami::hostname()`,
`whoami::username()`, and `humantime::format_duration` (on nanoseconds). -/
structure Environment where
  workingDir : Option FsPath
  prevExitCode : Int
  gitDiscovery : GitDiscovery
  prevCmdDuration : Option Nat
  homeDir : Option FsPath
  hostname : String
  username : String
  formatDuration : Nat → String

/-- `Environment::repo` from `src/env.rs`: returns the repository when
discovery found one; returns `None` both on the `NotFound` error code and on
any other discovery error (the latter is only logged with `tracing::error!`
before `None` is returned). -/
def Environment.repo (env : Environment) : Option Repo :=
  match env.gitDiscovery with
  | .found r => some r
  | .notFound => none
  | .otherError _ => none

/-- `Environment::new` from `src/env.rs` plus the ambient oracles: fresh
context for a working directory, previous exit code `0`, no previous command
duration. -/
def Environment.new (wd : FsPath) (gd : GitDiscovery) (home : Option FsPath)
    (host user : String) (fmt : Nat → String) : Environment :=
  ⟨some wd, 0, gd, none, home, host, user, fmt⟩

/-- `Error` from `src/err.rs`. -/
inductive LibError where
  | gettingPwdFailed (msg : String)
  | git (msg : String)
deriving DecidableEq, Repr

/-- `Environment::current` from `src/env.rs`: builds a fresh context from
`env::current_dir()` (passed as the `currentDir` oracle), failing with
`Error::GettingPwdFailed` when the current directory is unavailable. -/
def Environment.current (currentDir : Except String FsPath)
    (gd : GitDiscovery) (home : Option FsPath) (host user : String)
    (fmt : Nat → String) : Except LibError Environment :=
  match currentDir with
  | .error e => .error (.gettingPwdFailed e)
  | .ok wd => .ok (Environment.new wd gd home host user fmt)

/-- `Elapsed` config from `src/block/elapsed.rs` (durations in
nanoseconds). -/
structure Elapsed where
  style : Style
  prefixText : String
  threshold : Nat
deriving DecidableEq, Repr

/-- `Elapsed::produce`: shows the previous command duration when it is
present and at least the threshold, truncated to whole seconds plus whole
milliseconds before formatting; otherwise nothing. -/
def Elapsed.produce (cfg : Elapsed) (env : Environment) : List Block :=
  match env.prevCmdDuration with
  | some elapsed =>
    if cfg.threshold ≤ elapsed then
      let t := elapsed / 1000000000 * 1000000000
        + elapsed % 1000000000 / 1000000 * 1000000
      [(Block.new cfg.prefixText).withStyle cfg.style,
       (Block.new (env.formatDuration t)).withStyle cfg.style]
    else []
  | none => []

/-- `ExitCode` config from `src/block/exit_code.rs`. -/
structure ExitCode where
  style : Style
  prefixText : String
deriving DecidableEq, Repr

/-- `ExitCode::new`, with the default prefix. -/
def ExitCode.new : ExitCode :=
  ⟨Style.new, ""⟩

/-- `ExitCode::with_style`. -/
def ExitCode.withStyle (cfg : ExitCode) (s : Style) : ExitCode :=
  ⟨s, cfg.prefixText⟩

/-- `ExitCode::produce`: nothing when the previous exit code is `0`,
otherwise the prefix fragment and the decimal code fragment. -/
def ExitCode.produce (cfg : ExitCode) (env : Environment) : List Block :=
  match env.prevExitCode with
  | 0 => []
  | code =>
    [(Block.new cfg.prefixText).withStyle cfg.style,
     (Block.new (toString code)).withStyle cfg.style]

/-- `GitHead` config from `src/block/git_head.rs`. -/
structure GitHead where
  style : Style
  prefixText : String
deriving DecidableEq, Repr

/-- `GitHead::new`, with the default prefix. -/
def GitHead.new : GitHead :=
  ⟨Style.new, ""⟩

/-- `GitHead::produce`: nothing without a repository; the shorthand of
`HEAD`, with `master` substituted on an unborn branch; nothing when the
shorthand is absent or `head()` fails with another error (logged only). -/
def GitHead.produce (cfg : GitHead) (env : Environment) : List Block :=
  match env.repo with
  | none => []
  | some repo =>
    match repo.head with
    | .ok (some s) =>
      [(Block.new cfg.prefixText).withStyle cfg.style,
       (Block.new s).withStyle cfg.style]
    | .ok none => []
    | .unbornBranch =>
      [(Block.new cfg.prefixText).withStyle cfg.style,
       (Block.new "master").withStyle cfg.style]
    | .otherError _ => []

/-- `GitPath` config from `src/block/git_path.rs`. -/
structure GitPath where
  style : Style
  prefixText : String
deriving DecidableEq, Repr

/-- `GitPath::produce`: nothing without a repository or for a bare one;
otherwise the working directory relative to the parent of the repository
root (`repo.path().parent()` then `.parent()`), or nothing when that
stripping fails. -/
def GitPath.produce (cfg : GitPath) (env : Environment) : List Block :=
  match env.repo with
  | none => []
  | some repo =>
    if repo.isBare then []
    else
      match (fsPathParent repo.path).bind fun p =>
          env.workingDir.bind fun wd =>
          (fsPathParent p).bind fun pp =>
          fsPathStrip wd pp with
      | none => []
      | some rel =>
        [(Block.new cfg.prefixText).withStyle cfg.style,
         (Block.new (fsPathToString rel)).withStyle cfg.style]

/-- `Hostname` config from `src/block/hostname.rs`. -/
structure Hostname where
  style : Style
  prefixText : String
deriving DecidableEq, Repr

/-- `Hostname::produce`: always the prefix fragment and the hostname
fragment. -/
def Hostname.produce (cfg : Hostname) (env : Environment) : List Block :=
  [(Block.new cfg.prefixText).withStyle cfg.style,
   (Block.new env.hostname).withStyle cfg.style]

/-- `Username` config from `src/block/username.rs`. -/
structure Username where
  style : Style
  prefixText : String
deriving DecidableEq, Repr

/-- `Username::produce`: always the prefix fragment and the username
fragment. -/
def Username.produce (cfg : Username) (env : Environment) : List Block :=
  [(Block.new cfg.prefixText).withStyle cfg.style,
   (Block.new env.username).withStyle cfg.style]

/-- `WorkingDirectory` config from `src/block/pwd.rs`. -/
structure WorkingDirectory where
  style : Style
  homeAsTilde : Bool
  prefixText : String
deriving DecidableEq, Repr

/-- `WorkingDirectory::new`, with the defaults (`home_as_tilde = true`). -/
def WorkingDirectory.new : WorkingDirectory :=
  ⟨Style.new, true, ""⟩

/-- `WorkingDirectory::produce` from `src/block/pwd.rs`: always the prefix
fragment and a path fragment.  With `home_as_tilde`, a working directory
under the home directory is rewritten with a leading `~` (exactly `~` when
they are equal); an unavailable working directory is shown as `<NONE>`. -/
def WorkingDirectory.produce (cfg : WorkingDirectory) (env : Environment) :
    List Block :=
  let pwd : FsPath :=
    match env.workingDir with
    | some pwd =>
      if cfg.homeAsTilde then
        match env.homeDir.bind fun home => fsPathStrip pwd home with
        | some p => if p.isEmpty then ["~"] else "~" :: p
        | none => pwd
      else pwd
    | none => ["<NONE>"]
  [(Block.new cfg.prefixText).withStyle cfg.style,
   (Block.new (fsPathToString pwd)).withStyle cfg.style]

/-- `Text` config from `src/block/text.rs`. -/
structure TextBlock where
  style : Style
  contents : String
deriving DecidableEq, Repr

/-- `Text::produce`: always one fragment with the configured contents. -/
def TextBlock.produce (cfg : TextBlock) (_ : Environment) : List Block :=
  [(Block.new cfg.contents).withStyle cfg.style]

/-- `ExitStatusSymbol` config from `src/block/exit_status_symbol.rs`. -/
structure ExitStatusSymbol where
  style : Style
  errorStyle : Style
  contents : String
deriving DecidableEq, Repr

/-- `ExitStatusSymbol::produce`: one fragment with the configured contents,
styled with `style` on a zero previous exit code and `error_style`
otherwise; nothing when the contents are empty. -/
def ExitStatusSymbol.produce (cfg : ExitStatusSymbol) (env : Environment) :
    List Block :=
  let style := if env.prevExitCode == 0 then cfg.style else cfg.errorStyle
  if cfg.contents.isEmpty then []
  else [(Block.new cfg.contents).withStyle style]

/-- `BlockProducer` from `src/block.rs`: the closed tagged union of leaf
producers and combinators.  The `Or`, `Sequence` and `Separated` variants
carry their child lists inline (`Or(Vec<BlockProducer>)`,
`Sequence(Vec<BlockProducer>)`, `Separated { separator_style, separator,
producers }`), and `Styled { style, producer }` its single child. -/
inductive BlockProducer where
  | elapsed (cfg : Elapsed)
  | exitCode (cfg : ExitCode)
  | gitHead (cfg : GitHead)
  | gitPath (cfg : GitPath)
  | hostname (cfg : Hostname)
  | workingDirectory (cfg : WorkingDirectory)
  | username (cfg : Username)
  | newline
  | space
  | text (cfg : TextBlock)
  | exitStatusSymbol (cfg : ExitStatusSymbol)
  | or (ps : List BlockProducer)
  | sequence (ps : List BlockProducer)
  | separated (separatorStyle : Style) (separator : String)
      (ps : List BlockProducer)
  | styled (style : Style) (p : BlockProducer)

mutual

/-- `BlockProducer::produce` from `src/block.rs`: dispatch to the variant's
`produce`.  `Newline::produce` and `Space::produce` are inlined (they are
the constant one-fragment producers of `src/block/newline.rs` and
`src/block/space.rs`); `Styled::produce` from `src/block/styled.rs` maps
`block.style = block.style.or(&self.style)` over the child's fragments. -/
def BlockProducer.produce (env : Environment) (p : BlockProducer) :
    List Block :=
  match p with
  | .elapsed cfg => cfg.produce env
  | .exitCode cfg => cfg.produce env
  | .gitHead cfg => cfg.produce env
  | .gitPath cfg => cfg.produce env
  | .hostname cfg => cfg.produce env
  | .workingDirectory cfg => cfg.produce env
  | .username cfg => cfg.produce env
  | .newline => [Block.new "\n"]
  | .space => [Block.new " "]
  | .text cfg => cfg.produce env
  | .exitStatusSymbol cfg => cfg.produce env
  | .or ps => produceOr env ps
  | .sequence ps => produceSeq env ps
  | .separated st sep ps =>
      produceSepFold env ((Block.new sep).withStyle st) ps []
  | .styled st p =>
      (BlockProducer.produce env p).map fun b => ⟨b.text, b.style.or st⟩

/-- `Or::produce` from `src/block/or.rs`: the lazy
`iter().map(produce).find(|b| !b.is_empty())` evaluates children in order
until the first non-empty result, which it returns
(`unwrap_or_default` yields `[]` when every child is empty). -/
def produceOr (env : Environment) (ps : List BlockProducer) : List Block :=
  match ps with
  | [] => []
  | p :: ps =>
    let bs := BlockProducer.produce env p
    if bs.isEmpty then produceOr env ps else bs

/-- `Sequence::produce` from `src/block/sequence.rs`:
`iter().flat_map(produce).collect()`. -/
def produceSeq (env : Environment) (ps : List BlockProducer) : List Block :=
  match ps with
  | [] => []
  | p :: ps => BlockProducer.produce env p ++ produceSeq env ps

/-- The fold of `Separated::produce` from `src/block/separated.rs`: for each
child in order, push one separator block when both the accumulator and the
child's result are non-empty, then append the child's result. -/
def produceSepFold (env : Environment) (sepBlock : Block)
    (ps : List BlockProducer) (acc : List Block) : List Block :=
  match ps with
  | [] => acc
  | p :: ps =>
    let blocks := BlockProducer.produce env p
    let acc2 :=
      if ¬acc.isEmpty ∧ ¬blocks.isEmpty then acc ++ [sepBlock] else acc
    produceSepFold env sepBlock ps (acc2 ++ blocks)

end

/-- `AppError` from `src/main.rs` (external error payloads kept as
strings). -/
inductive AppError where
  | badConfig (msg : String)
  | readingConfigFailed (msg : String)
  | badExitCode (s : String)
  | print (msg : String)
  | prompt (e : LibError)
  | promptGenerationPanicked
  | promptGenerationTimedOut
  | decodingStateFailed (msg : String)
  | parsingStateFailed (msg : String)
  | gettingConfigDirFailed
  | gettingProgramPathFailed (msg : String)
  | programPathNotUnicode
deriving DecidableEq, Repr

/-- Outcome of the spawned evaluation thread in `print_prompt`
(`src/main.rs`): either the closure panicked, or it finished with
`make_prompt`'s result. -/
inductive WorkerOutcome where
  | panicked
  | finished (r : Except AppError (List Block))

/-- Result of `receiver.recv_timeout(timeout)` in `print_prompt`.  The
sender is never used to send; it is dropped when the worker finishes or
unwinds, so the waiter observes `Disconnected` when the worker is done
before the deadline and `Timeout` when the deadline elapses first. -/
inductive RecvOutcome where
  | disconnected
  | timedOut
deriving DecidableEq, Repr

/-- The timeout-bounded wait of `print_prompt`: the race between worker
completion and the deadline is abstracted by the boolean
`finishedBeforeDeadline`. -/
def recvTimeout (finishedBeforeDeadline : Bool) : RecvOutcome :=
  if finishedBeforeDeadline then .disconnected else .timedOut

/-- `blocks.join()` in `print_prompt`: `none` when the worker thread
panicked, otherwise the worker's own result. -/
def joinWorker (w : WorkerOutcome) : Option (Except AppError (List Block)) :=
  match w with
  | .panicked => none
  | .finished r => some r

/-- The generation controller of `print_prompt` (`src/main.rs`): wait with
timeout, then on `Ok(()) | Err(Disconnected)` take
`join().unwrap_or(Err(PromptGenerationPanicked))`, and on `Err(Timeout)`
return `Err(PromptGenerationTimedOut)` (the abandoned worker's eventual
result is discarded). -/
def printPromptOutcome (w : WorkerOutcome) (finishedBeforeDeadline : Bool) :
    Except AppError (List Block) :=
  match recvTimeout finishedBeforeDeadline with
  | .disconnected => (joinWorker w).getD (.error .promptGenerationPanicked)
  | .timedOut => .error .promptGenerationTimedOut

/-- `fallback_prompt` from `src/config.rs`: the statically-known minimal
producer, a sequence of the exit code (crimson), the plain `>` directional
symbol (dodgerblue, crimson on error) and a space. -/
def fallbackPrompt : BlockProducer :=
  .sequence
    [.exitCode (ExitCode.new.withStyle (Style.fg CRIMSON)),
     .exitStatusSymbol ⟨Style.fg DODGERBLUE, Style.fg CRIMSON, ">"⟩,
     .space]

/-- `print_fallback_prompt` from `src/main.rs`: evaluates the statically
known fallback configuration against a freshly built
`Environment::current()` (not the context the failed generation used),
failing with the wrapped context-construction error when the current
directory is unavailable. -/
def printFallbackPrompt (currentDir : Except String FsPath)
    (gd : GitDiscovery) (home : Option FsPath) (host user : String)
    (fmt : Nat → String) : Except AppError (List Block) :=
  match Environment.current currentDir gd home host user fmt with
  | .error e => .error (.prompt e)
  | .ok env => .ok (BlockProducer.produce env fallbackPrompt)

/-- `print_or_fallback` from `src/main.rs`.  The first component is the
returned result: the original error is returned unchanged whenever
`print_prompt` failed, whatever the fallback did (`let _ =
print_fallback_prompt(shell); Err(e)`).  The second component records
whether `print_fallback_prompt` was invoked (it is skipped in test
mode). -/
def printOrFallback (promptRes : Except AppError Unit) (isTest : Bool) :
    Except AppError Unit × Bool :=
  match promptRes with
  | .ok _ => (.ok (), false)
  | .error e => if isTest then (.error e, false) else (.error e, true)

/-- `main` from `src/main.rs`: the process exits with a non-zero status
exactly when `run()` returns an error (after printing its cause chain). -/
def mainExitsNonZero (runResult : Except AppError Unit) : Bool :=
  match runResult with
  | .ok _ => false
  | .error _ => true

/-- Instrumentation of the lazy `iter().map(produce).find(..)` in
`Or::produce`: the number of children the iterator forces, namely every
child up to and including the first one with a non-empty result (all of
them when every result is empty). -/
def produceOrCount (env : Environment) (ps : List BlockProducer) : Nat :=
  match ps with
  | [] => 0
  | p :: ps =>
    if (BlockProducer.produce env p).isEmpty then 1 + produceOrCount env ps
    else 1

/-- Specification-side join for `Separated`: the child results joined with
exactly one separator block between consecutive entries. -/
def sepJoin (sep : Block) (l : List (List Block)) : List Block :=
  match l with
  | [] => []
  | [b] => b
  | b :: rest => b ++ sep :: sepJoin sep rest

mutual

/-- Whether every leaf of the tree evaluates to the empty fragment list
against `env` (the hypothesis of the all-empty composition property). -/
def allLeavesEmpty (env : Environment) (p : BlockProducer) : Bool :=
  match p with
  | .or ps => allLeavesEmptyList env ps
  | .sequence ps => allLeavesEmptyList env ps
  | .separated _ _ ps => allLeavesEmptyList env ps
  | .styled _ p => allLeavesEmpty env p
  | p => (BlockProducer.produce env p).isEmpty

def allLeavesEmptyList (env : Environment) (ps : List BlockProducer) : Bool :=
  match ps with
  | [] => true
  | p :: ps => allLeavesEmpty env p && allLeavesEmptyList env ps

end

/-! ### Concrete contexts used by witnesses and counterexamples -/

/-- A concrete context: inside the home directory, previous command
succeeded, no repository. -/
def envDemo : Environment :=
  ⟨some ["home", "u"], 0, .notFound, none, some ["home", "u"], "host", "user",
   fun _ => "2s"⟩

/-- A concrete context whose git discovery fails with an error other than
not-a-repository. -/
def envGitErr : Environment :=
  ⟨some ["r"], 0, .otherError "permission denied", none, none, "host", "user",
   fun _ => "2s"⟩

/-- A concrete context whose git discovery reports not-a-repository. -/
def envGitNotFound : Environment :=
  ⟨some ["r"], 0, .notFound, none, none, "host", "user", fun _ => "2s"⟩

/-- A concrete context with no working directory available. -/
def envNoPwd : Environment :=
  ⟨none, 0, .notFound, none, some ["home", "u"], "host", "user", fun _ => "2s"⟩

/-! ### C1: generation controller classification -/

/-- C1: for every worker outcome and deadline race, the generation
controller of `print_prompt` classifies the result three ways: the deadline
elapsing first yields `PromptGenerationTimedOut` (whatever the worker was
doing); a worker panic observed within the deadline yields
`PromptGenerationPanicked`, an error distinct from the timeout one; and a
worker that completes within the deadline with a fragment sequence yields
exactly that sequence. -/
theorem printPrompt_classifies_timeout_panic_success :
    ∀ (w : WorkerOutcome) (bs : List Block),
      printPromptOutcome w false = .error .promptGenerationTimedOut ∧
      printPromptOutcome .panicked true = .error .promptGenerationPanicked ∧
      printPromptOutcome (.finished (.ok bs)) true = .ok bs ∧
      AppError.promptGenerationTimedOut ≠ AppError.promptGenerationPanicked := by
  intro w bs
  refine ⟨rfl, rfl, rfl, by decide⟩

/-! ### C4: color parsing -/

/-- C4 (code bug evaluation): the source's own documentation promises
`#rrggbb` hexadecimal literals (serde `expecting` message: "an hexadecimal
sRGB color (e.g. \"#ff00fe\")"), but `TryFrom<String> for Color` parses the
text after `#` with `str::parse::<u32>()`, which is decimal: the
documented hexadecimal literal `#ff0000` is rejected as invalid, while the
undocumented decimal spelling `#16711680` (= 0xff0000) is accepted and
yields red. -/
theorem color_hex_literal_rejected_decimal_accepted :
    colorTryFrom (fun _ => none) "#ff0000" = .error "#ff0000" ∧
    colorTryFrom (fun _ => none) "#16711680" = .ok (Color.new 255 0 0) :=
  ⟨rfl, rfl⟩

/-! ### C5: color equality and rendering -/

/-- C5 (counterexample): the derived `PartialEq` on `Color` compares the
optional name as well as the RGB triple, so the palette constant `BLACK`
and the anonymous `Color::new(0, 0, 0)` are unequal despite having the same
RGB value (and the same rendering). -/
theorem color_eq_not_rgb_only :
    Color.eqRust BLACK (Color.new 0 0 0) = false ∧
    BLACK.asRgb = (Color.new 0 0 0).asRgb ∧
    BLACK.toAnsi = (Color.new 0 0 0).toAnsi :=
  ⟨rfl, rfl, rfl⟩

/-- C5 (amended): rendering to `ansi_term::Color` depends only on the RGB
triple, but equality is structural over both the RGB triple and the
optional name: two colors are equal exactly when both agree. -/
theorem color_render_rgb_only_eq_structural :
    ∀ a b : Color,
      (Color.eqRust a b = true ↔
        a.r = b.r ∧ a.g = b.g ∧ a.b = b.b ∧ a.name = b.name) ∧
      (a.asRgb = b.asRgb → a.toAnsi = b.toAnsi) := by
  intro a b
  constructor
  · simp [Color.eqRust, Bool.and_eq_true, beq_iff_eq, and_assoc]
  · intro h
    cases a
    cases b
    simp only [Color.asRgb, Prod.mk.injEq] at h
    simp [Color.toAnsi, h.1, h.2.1, h.2.2]

/-- Witness for the amended C5 theorem at concrete colors. -/
theorem color_render_rgb_only_eq_structural_witness :
    BLACK.toAnsi = (Color.new 0 0 0).toAnsi ∧ Color.eqRust BLACK BLACK = true :=
  ⟨(color_render_rgb_only_eq_structural BLACK (Color.new 0 0 0)).2 rfl,
   (color_render_rgb_only_eq_structural BLACK BLACK).1.mpr ⟨rfl, rfl, rfl, rfl⟩⟩

/-! ### C8: styled overlay idempotence -/

/-- C8: the `Styled` overlay is idempotent on fully-styled fragments: when
every fragment produced by the child already carries both a foreground and
a background color, overlaying any default style leaves the produced
fragments unchanged. -/
theorem styled_overlay_idempotent_on_fully_styled :
    ∀ (env : Environment) (st : Style) (p : BlockProducer),
      (∀ b ∈ BlockProducer.produce env p,
        b.style.foreground.isSome ∧ b.style.background.isSome) →
      BlockProducer.produce env (.styled st p) = BlockProducer.produce env p := by
  intro env st p h
  simp only [BlockProducer.produce]
  calc (BlockProducer.produce env p).map (fun b => ⟨b.text, b.style.or st⟩)
      = (BlockProducer.produce env p).map id := by
        apply List.map_congr_left
        intro b hb
        obtain ⟨hf, hg⟩ := h b hb
        obtain ⟨t, ⟨fg, bg⟩⟩ := b
        obtain ⟨cf, hcf⟩ := Option.isSome_iff_exists.mp hf
        obtain ⟨cg, hcg⟩ := Option.isSome_iff_exists.mp hg
        simp only at hcf hcg
        simp [Style.or, hcf, hcg]
    _ = BlockProducer.produce env p := List.map_id _

/-- Witness for C8: a fully styled text fragment under an arbitrary default
overlay. -/
theorem styled_overlay_idempotent_on_fully_styled_witness :
    BlockProducer.produce envDemo
        (.styled (Style.fg CRIMSON)
          (.text ⟨⟨some DODGERBLUE, some BLACK⟩, "x"⟩)) =
      BlockProducer.produce envDemo (.text ⟨⟨some DODGERBLUE, some BLACK⟩, "x"⟩) :=
  styled_overlay_idempotent_on_fully_styled envDemo (Style.fg CRIMSON)
    (.text ⟨⟨some DODGERBLUE, some BLACK⟩, "x"⟩) (by decide)

/-! ### C6: Or combinator -/

/-- The result of `Or::produce` is the first non-empty child result, `[]`
when there is none. -/
theorem produceOr_eq_headD (env : Environment) :
    ∀ ps : List BlockProducer,
      produceOr env ps =
        ((ps.map (BlockProducer.produce env)).filter
            fun bs => !bs.isEmpty).headD []
  | [] => rfl
  | p :: ps => by
    simp only [produceOr, List.map_cons, List.filter_cons]
    by_cases hb : (BlockProducer.produce env p).isEmpty
    · simp [hb, produceOr_eq_headD env ps]
    · simp [hb]

/-- The lazy find of `Or::produce` forces exactly the children up to and
including the first one with a non-empty result. -/
theorem produceOrCount_eq (env : Environment) :
    ∀ ps : List BlockProducer,
      produceOrCount env ps =
        min ps.length
          (((ps.map (BlockProducer.produce env)).takeWhile
              fun bs => bs.isEmpty).length + 1)
  | [] => rfl
  | p :: ps => by
    simp only [produceOrCount, List.map_cons, List.takeWhile_cons]
    cases hb : (BlockProducer.produce env p).isEmpty with
    | true =>
      simp [hb, produceOrCount_eq env ps]
      omega
    | false =>
      simp [hb]

/-- C6: evaluating `Or` returns the result of the first child (in list
order) whose evaluation is non-empty, and the empty sequence when every
child's evaluation is empty; moreover the lazy iterator forces only the
children up to and including the first non-empty one, so children after it
are not evaluated (short-circuit). -/
theorem or_first_nonempty_and_short_circuit :
    ∀ (env : Environment) (ps : List BlockProducer),
      BlockProducer.produce env (.or ps) =
        ((ps.map (BlockProducer.produce env)).filter
            fun bs => !bs.isEmpty).headD [] ∧
      produceOrCount env ps =
        min ps.length
          (((ps.map (BlockProducer.produce env)).takeWhile
              fun bs => bs.isEmpty).length + 1) := by
  intro env ps
  exact ⟨produceOr_eq_headD env ps, produceOrCount_eq env ps⟩

/-! ### C7: Separated combinator -/

/-- Closed form of the `Separated::produce` fold as a function of the
accumulator: joining the non-empty child results, with one separator
between the accumulator and the rest when both sides are non-empty. -/
theorem produceSepFold_eq (env : Environment) (sb : Block) :
    ∀ (ps : List BlockProducer) (acc : List Block),
      produceSepFold env sb ps acc =
        if acc.isEmpty then
          sepJoin sb
            ((ps.map (BlockProducer.produce env)).filter fun bs => !bs.isEmpty)
        else if ((ps.map (BlockProducer.produce env)).filter
            fun bs => !bs.isEmpty).isEmpty then acc
        else acc ++ sb ::
          sepJoin sb
            ((ps.map (BlockProducer.produce env)).filter fun bs => !bs.isEmpty)
  | [], acc => by
    cases acc <;> simp [produceSepFold, sepJoin]
  | p :: ps, acc => by
    simp only [produceSepFold, List.map_cons, List.filter_cons]
    rw [produceSepFold_eq env sb ps]
    cases hb : (BlockProducer.produce env p).isEmpty with
    | true =>
      have hbe : BlockProducer.produce env p = [] := List.isEmpty_iff.mp hb
      simp [hb, hbe]
    | false =>
      have hne : BlockProducer.produce env p ≠ [] := by
        intro h
        rw [h] at hb
        simp at hb
      cases acc with
      | nil =>
        cases hF : (ps.map (BlockProducer.produce env)).filter
            fun bs => !bs.isEmpty with
        | nil => simp [hb, hF, sepJoin, hne]
        | cons F Fs => simp [hb, hF, sepJoin, hne]
      | cons a as =>
        cases hF : (ps.map (BlockProducer.produce env)).filter
            fun bs => !bs.isEmpty with
        | nil => simp [hb, hF, sepJoin, hne]
        | cons F Fs => cases Fs <;> simp [hb, hF, sepJoin, hne]

/-- C7: evaluating `Separated` concatenates the children's non-empty
results in order with exactly one separator fragment between consecutive
non-empty results — none before the first, none after the last, and none
adjacent to an empty child result (empty results are dropped from the
join). -/
theorem separated_one_separator_between_nonempty :
    ∀ (env : Environment) (st : Style) (sep : String)
      (ps : List BlockProducer),
      BlockProducer.produce env (.separated st sep ps) =
        sepJoin ((Block.new sep).withStyle st)
          ((ps.map (BlockProducer.produce env)).filter fun bs => !bs.isEmpty) := by
  intro env st sep ps
  have h := produceSepFold_eq env ((Block.new sep).withStyle st) ps []
  simpa using h

/-! ### C9: all-leaves-empty composition -/

mutual

theorem allEmptyProduceAux (env : Environment) :
    ∀ p : BlockProducer, allLeavesEmpty env p = true →
      BlockProducer.produce env p = []
  | .elapsed _, h => List.isEmpty_iff.mp h
  | .exitCode _, h => List.isEmpty_iff.mp h
  | .gitHead _, h => List.isEmpty_iff.mp h
  | .gitPath _, h => List.isEmpty_iff.mp h
  | .hostname _, h => List.isEmpty_iff.mp h
  | .workingDirectory _, h => List.isEmpty_iff.mp h
  | .username _, h => List.isEmpty_iff.mp h
  | .newline, h => List.isEmpty_iff.mp h
  | .space, h => List.isEmpty_iff.mp h
  | .text _, h => List.isEmpty_iff.mp h
  | .exitStatusSymbol _, h => List.isEmpty_iff.mp h
  | .or ps, h => allEmptyOrAux env ps h
  | .sequence ps, h => allEmptySeqAux env ps h
  | .separated st sep ps, h =>
      allEmptySepAux env ((Block.new sep).withStyle st) ps h []
  | .styled st p, h => by
      simp only [BlockProducer.produce]
      rw [allEmptyProduceAux env p h]
      rfl

theorem allEmptyOrAux (env : Environment) :
    ∀ ps : List BlockProducer, allLeavesEmptyList env ps = true →
      produceOr env ps = []
  | [], _ => rfl
  | p :: ps, h => by
      have hsplit : allLeavesEmpty env p = true ∧
          allLeavesEmptyList env ps = true := by
        simpa [allLeavesEmptyList] using h
      have h1 := hsplit.1
      have h2 := hsplit.2
      simp only [produceOr]
      rw [allEmptyProduceAux env p h1]
      simpa using allEmptyOrAux env ps h2

theorem allEmptySeqAux (env : Environment) :
    ∀ ps : List BlockProducer, allLeavesEmptyList env ps = true →
      produceSeq env ps = []
  | [], _ => rfl
  | p :: ps, h => by
      have hsplit : allLeavesEmpty env p = true ∧
          allLeavesEmptyList env ps = true := by
        simpa [allLeavesEmptyList] using h
      have h1 := hsplit.1
      have h2 := hsplit.2
      simp only [produceSeq]
      rw [allEmptyProduceAux env p h1]
      simpa using allEmptySeqAux env ps h2

theorem allEmptySepAux (env : Environment) (sb : Block) :
    ∀ ps : List BlockProducer, allLeavesEmptyList env ps = true →
      ∀ acc : List Block, produceSepFold env sb ps acc = acc
  | [], _, _ => rfl
  | p :: ps, h, acc => by
      have hsplit : allLeavesEmpty env p = true ∧
          allLeavesEmptyList env ps = true := by
        simpa [allLeavesEmptyList] using h
      have h1 := hsplit.1
      have h2 := hsplit.2
      simp only [produceSepFold]
      rw [allEmptyProduceAux env p h1]
      simpa using allEmptySepAux env sb ps h2 acc

end

/-- C9: when every leaf of a producer tree evaluates to the empty fragment
sequence against the given context, the whole tree (through any nesting of
`Sequence`, `Or`, `Separated` and `Styled`) evaluates to the empty
sequence; in particular no separator fragments appear. -/
theorem tree_empty_of_all_leaves_empty :
    ∀ (env : Environment) (p : BlockProducer),
      allLeavesEmpty env p = true → BlockProducer.produce env p = [] :=
  fun env p h => allEmptyProduceAux env p h

/-- Witness for C9: a tree nesting all four combinators over leaves that
are empty under `envDemo` (exit code 0, no duration, no repository). -/
theorem tree_empty_of_all_leaves_empty_witness :
    allLeavesEmpty envDemo
        (.separated Style.new " | "
          [.exitCode ExitCode.new, .or [],
           .sequence [.elapsed ⟨Style.new, "", 2000000000⟩],
           .styled (Style.fg CRIMSON) (.gitHead GitHead.new)]) = true ∧
      BlockProducer.produce envDemo
        (.separated Style.new " | "
          [.exitCode ExitCode.new, .or [],
           .sequence [.elapsed ⟨Style.new, "", 2000000000⟩],
           .styled (Style.fg CRIMSON) (.gitHead GitHead.new)]) = [] :=
  ⟨by decide,
   tree_empty_of_all_leaves_empty envDemo
     (.separated Style.new " | "
       [.exitCode ExitCode.new, .or [],
        .sequence [.elapsed ⟨Style.new, "", 2000000000⟩],
        .styled (Style.fg CRIMSON) (.gitHead GitHead.new)]) (by decide)⟩

/-! ### C3: git discovery failure handling -/

/-- C3 (counterexample): a discovery error other than not-a-repository is
not propagated as a hard generation failure; `Environment::repo` swallows
it into `None` — indistinguishable from the not-a-repository outcome — and
the repository producers yield empty fragment sequences. -/
theorem repo_error_swallowed_counterexample :
    Environment.repo envGitErr = none ∧
    Environment.repo envGitErr = Environment.repo envGitNotFound ∧
    BlockProducer.produce envGitErr (.gitHead GitHead.new) = [] ∧
    BlockProducer.produce envGitErr (.gitPath ⟨Style.new, ""⟩) = [] :=
  ⟨rfl, rfl, rfl, rfl⟩

/-- C3 (amended): the not-a-repository discovery outcome yields `None`
(hence empty results from repository producers), and every other discovery
error is logged and likewise mapped to `None`: no discovery error is
propagated through evaluation as a generation failure. -/
theorem repo_discovery_errors_all_yield_none :
    ∀ (env : Environment) (msg : String) (cfgH : GitHead) (cfgP : GitPath),
      (env.gitDiscovery = .notFound → env.repo = none) ∧
      (env.gitDiscovery = .otherError msg → env.repo = none) ∧
      (env.repo = none →
        GitHead.produce cfgH env = [] ∧ GitPath.produce cfgP env = []) := by
  intro env msg cfgH cfgP
  refine ⟨fun h => ?_, fun h => ?_, fun h => ?_⟩
  · simp [Environment.repo, h]
  · simp [Environment.repo, h]
  · constructor
    · simp [GitHead.produce, h]
    · simp [GitPath.produce, h]

/-- Witness for the amended C3 theorem at the concrete failing-discovery
context. -/
theorem repo_discovery_errors_all_yield_none_witness :
    Environment.repo envGitErr = none ∧
    GitHead.produce GitHead.new envGitErr = [] ∧
    GitPath.produce ⟨Style.new, ""⟩ envGitErr = [] :=
  ⟨(repo_discovery_errors_all_yield_none envGitErr "permission denied"
      GitHead.new ⟨Style.new, ""⟩).2.1 rfl,
   (repo_discovery_errors_all_yield_none envGitErr "permission denied"
      GitHead.new ⟨Style.new, ""⟩).2.2
     ((repo_discovery_errors_all_yield_none envGitErr "permission denied"
        GitHead.new ⟨Style.new, ""⟩).2.1 rfl)⟩

/-! ### C2: fallback policy -/

/-- C2 (counterexample): with test mode off, a timed-out generation invokes
the fallback, the fallback evaluation succeeds (fresh current-directory
context, default previous exit code 0), and yet the original failure is
still the returned result — surfaced to the user with a non-zero exit —
refuting "only if that fallback evaluation also fails is the failure
surfaced"; and the fallback context is a freshly built
`Environment::current()`, not the context the failed generation used. -/
theorem fallback_result_discarded_counterexample :
    printOrFallback (.error .promptGenerationTimedOut) false =
      (.error .promptGenerationTimedOut, true) ∧
    printFallbackPrompt (.ok ["home", "u"]) .notFound none "host" "user"
        (fun _ => "2s") =
      .ok [⟨">", Style.fg DODGERBLUE⟩, ⟨" ", Style.new⟩] ∧
    (Environment.new ["home", "u"] .notFound none "host" "user"
        fun _ => "2s").prevExitCode = 0 ∧
    mainExitsNonZero (.error .promptGenerationTimedOut) = true :=
  ⟨rfl, rfl, rfl, rfl⟩

/-- C2 (amended): whenever prompt generation fails and test mode is off,
the caller invokes the fallback (the statically-known `fallback_prompt`
producer: exit code plus the plain `>` directional symbol) evaluated
against a freshly constructed current-directory context with previous exit
code 0 — not the context the failed generation used — and the original
failure is always returned (so it is surfaced and the process exits
non-zero) regardless of the fallback evaluation's outcome; in test mode
the fallback is not attempted. -/
theorem fallback_best_effort_error_always_surfaced :
    ∀ (e : AppError) (isTest : Bool) (cwd : FsPath) (gd : GitDiscovery)
      (home : Option FsPath) (host user : String) (fmt : Nat → String),
      printOrFallback (.error e) false = (.error e, true) ∧
      printOrFallback (.error e) true = (.error e, false) ∧
      printOrFallback (.ok ()) isTest = (.ok (), false) ∧
      mainExitsNonZero (.error e) = true ∧
      printFallbackPrompt (.ok cwd) gd home host user fmt =
        .ok (BlockProducer.produce (Environment.new cwd gd home host user fmt)
          fallbackPrompt) ∧
      (Environment.new cwd gd home host user fmt).prevExitCode = 0 := by
  intro e isTest cwd gd home host user fmt
  exact ⟨rfl, rfl, rfl, rfl, rfl, rfl⟩

/-! ### C10: WorkingDirectory producer -/

/-- C10: `WorkingDirectory::produce` always returns exactly two fragments
— the prefix and the path text, both carrying the configured style — and
never the empty sequence; when the working directory is unavailable the
path text is the literal `<NONE>`, and when `home_as_tilde` is set and the
working directory equals the home directory the path text is exactly
`~`. -/
theorem workingDirectory_two_fragments :
    ∀ (cfg : WorkingDirectory) (env : Environment),
      ((WorkingDirectory.produce cfg env).length = 2 ∧
        WorkingDirectory.produce cfg env ≠ []) ∧
      (WorkingDirectory.produce cfg env).head? =
        some ((Block.new cfg.prefixText).withStyle cfg.style) ∧
      (env.workingDir = none →
        (WorkingDirectory.produce cfg env).map Block.text =
          [cfg.prefixText, "<NONE>"]) ∧
      (∀ h : FsPath, cfg.homeAsTilde = true → env.workingDir = some h →
        env.homeDir = some h →
        (WorkingDirectory.produce cfg env).map Block.text =
          [cfg.prefixText, "~"]) := by
  intro cfg env
  refine ⟨⟨?_, ?_⟩, ?_, fun hwd => ?_, fun h htilde hwd hhome => ?_⟩
  · simp [WorkingDirectory.produce]
  · simp [WorkingDirectory.produce]
  · simp [WorkingDirectory.produce]
  · simp [WorkingDirectory.produce, hwd, Block.new, Block.withStyle,
      fsPathToString]
    decide
  · have hstrip : fsPathStrip h h = some [] := by
      simp [fsPathStrip]
    simp [WorkingDirectory.produce, hwd, hhome, htilde, hstrip, Block.new,
      Block.withStyle, fsPathToString]
    decide

/-- Witness for C10 at the unavailable-directory and at-home contexts. -/
theorem workingDirectory_two_fragments_witness :
    (WorkingDirectory.produce WorkingDirectory.new envNoPwd).map Block.text =
      [WorkingDirectory.new.prefixText, "<NONE>"] ∧
    (WorkingDirectory.produce WorkingDirectory.new envDemo).map Block.text =
      [WorkingDirectory.new.prefixText, "~"] :=
  ⟨(workingDirectory_two_fragments WorkingDirectory.new envNoPwd).2.2.1 rfl,
   (workingDirectory_two_fragments WorkingDirectory.new envDemo).2.2.2
     ["home", "u"] rfl rfl rfl⟩

end Eliprompt
